import Mathlib

/-!
Verification of the PST-to-mbox conversion pipeline (`pst_to_mbox.py`)
against its natural-language specification.

The Python source is shallowly embedded: Python `str` is modelled as Lean
`String` (or `List Char` where character-level scanning is needed), bytes as
`List Nat`, exceptions as an explicit `PyExc` enumeration threaded through
`Except`, and the stateful statistics counters as an explicit `Stats` record
updated by an event trace.
-/

namespace PstToMbox

/-- The Python exception classes relevant to the converter.  `valueError`
covers `ValueError` itself; `unicodeDecodeError` and `unicodeEncodeError` are
its subclasses in Python's hierarchy and are listed separately so that the
`except (SystemError, ValueError, UnicodeDecodeError, OverflowError)` clauses
can be modelled precisely.  `typeError`, `attributeError`, `runtimeError` and
`keyError` stand for exception types that are *not* caught by those clauses. -/
inductive PyExc
  | systemError
  | valueError
  | unicodeDecodeError
  | unicodeEncodeError
  | overflowError
  | typeError
  | attributeError
  | runtimeError
  | keyError
deriving DecidableEq, Repr

/-- Whether an exception is caught by the clause
`except (SystemError, ValueError, UnicodeDecodeError, OverflowError)`
used both in `safe_get_attr` and in the per-attachment handler.
`UnicodeEncodeError` and `UnicodeDecodeError` are subclasses of `ValueError`
in Python, hence caught. -/
def isCaughtBySafeGet : PyExc → Bool
  | .systemError => true
  | .valueError => true
  | .unicodeDecodeError => true
  | .unicodeEncodeError => true
  | .overflowError => true
  | _ => false

/-- Outcome of a single Python attribute read `getattr(obj, attr, default)`
on a possibly corrupted source record:
the attribute may be present with a value, present but `None`, missing
entirely (so `getattr` yields the supplied default), or reading it may raise. -/
inductive ReadOutcome (α : Type)
  | val (v : α)
  | noneVal
  | missing
  | exc (e : PyExc)
deriving DecidableEq, Repr

/-- Embedding of `PSTToMboxConverter.safe_get_attr` (pst_to_mbox.py:172-179):
`value = getattr(obj, attr, default)`, returning `default` when the value is
`None`, and catching `(SystemError, ValueError, UnicodeDecodeError,
OverflowError)` by returning `default`; any other exception propagates. -/
def safe_get_attr {α : Type} (r : ReadOutcome α) (default : α) : Except PyExc α :=
  match r with
  | .val v => .ok v
  | .noneVal => .ok default
  | .missing => .ok default
  | .exc e => if isCaughtBySafeGet e then .ok default else .error e

/-- The failure classes named by the specification for the safe accessor:
decode failures (`UnicodeDecodeError`), range failures (`ValueError`,
`OverflowError`, `SystemError`), and encoding failures
(`UnicodeEncodeError`, a `ValueError` subclass). -/
def isDecodeRangeOrEncodingFailure : PyExc → Bool
  | .unicodeDecodeError => true
  | .valueError => true
  | .overflowError => true
  | .unicodeEncodeError => true
  | .systemError => true
  | _ => false

/-! ### Address formatter -/

/-- The whitespace set used both by Python's `str.strip()` and by the regex
class `\s` on `str` (ASCII whitespace, the C1 separator block, and the
Unicode space characters). -/
def isPySpace (c : Char) : Bool :=
  decide (c.toNat = 32 ∨ (9 ≤ c.toNat ∧ c.toNat ≤ 13) ∨ (28 ≤ c.toNat ∧ c.toNat ≤ 31) ∨
    c.toNat = 0x85 ∨ c.toNat = 0xa0 ∨ c.toNat = 0x1680 ∨
    (0x2000 ≤ c.toNat ∧ c.toNat ≤ 0x200a) ∨ c.toNat = 0x2028 ∨ c.toNat = 0x2029 ∨
    c.toNat = 0x202f ∨ c.toNat = 0x205f ∨ c.toNat = 0x3000)

/-- Python `str.strip()`: remove leading and trailing whitespace. -/
def pyStrip (s : String) : String :=
  ⟨((s.data.dropWhile isPySpace).reverse.dropWhile isPySpace).reverse⟩

/-- Whether `name.encode('ascii')` succeeds: every code point below 128. -/
def isAsciiStr (s : String) : Bool :=
  s.data.all (fun c => decide (c.toNat < 128))

/-- UTF-8 encoding of one code point (what Python's `name.encode('utf-8')`
produces per character). -/
def utf8EncodeChar (c : Char) : List Nat :=
  let n := c.toNat
  if n < 0x80 then [n]
  else if n < 0x800 then [0xC0 + n / 64, 0x80 + n % 64]
  else if n < 0x10000 then [0xE0 + n / 4096, 0x80 + (n / 64) % 64, 0x80 + n % 64]
  else [0xF0 + n / 262144, 0x80 + (n / 4096) % 64, 0x80 + (n / 64) % 64, 0x80 + n % 64]

/-- UTF-8 bytes of a string. -/
def utf8Bytes (s : String) : List Nat :=
  (s.data.map utf8EncodeChar).flatten

/-- The base64 alphabet. -/
def b64Table : List Char :=
  "ABCDEFGHIJKLMNOPQRSTUVWXYZabcdefghijklmnopqrstuvwxyz0123456789+/".data

/-- One base64 digit. -/
def b64Char (n : Nat) : Char := b64Table.getD n 'A'

/-- Standard base64 encoding of a byte list (with `=` padding). -/
def base64Encode : List Nat → List Char
  | [] => []
  | [b1] => [b64Char (b1 / 4), b64Char (b1 % 4 * 16), '=', '=']
  | [b1, b2] => [b64Char (b1 / 4), b64Char (b1 % 4 * 16 + b2 / 16), b64Char (b2 % 16 * 4), '=']
  | b1 :: b2 :: b3 :: rest =>
    b64Char (b1 / 4) :: b64Char (b1 % 4 * 16 + b2 / 16) ::
      b64Char (b2 % 16 * 4 + b3 / 64) :: b64Char (b3 % 64) :: base64Encode rest

/-- Modelled stdlib call: `email.header.Header(name, 'utf-8').encode()`
(pst_to_mbox.py:108-109) rendered as an RFC 2047 encoded-word.  Python picks
the shorter of the quoted-printable and base64 transfer encodings; both are
pure-ASCII encoded-words of the shape `=?utf-8?_?...?=`, and the base64 form
is used here. -/
def headerEncodeUtf8 (name : String) : String :=
  ⟨"=?utf-8?b?".data ++ base64Encode (utf8Bytes name) ++ "?=".data⟩

/-- Embedding of `PSTToMboxConverter.format_email_address`
(pst_to_mbox.py:96-112).  `name = none` models the Python default `None`. -/
def format_email_address (address : String) (name : Option String) : String :=
  if address = "" then ""
  else
    match name with
    | some n =>
      if n ≠ "" ∧ pyStrip n ≠ "" then
        if isAsciiStr n then n ++ " <" ++ address ++ ">"
        else headerEncodeUtf8 n ++ " <" ++ address ++ ">"
      else address
    | none => address

/-! ### Attachment extractor -/

/-- One attachment handle as exposed by libpff, at the granularity the
extractor reads it: the `name` and `size` attributes (read through
`safe_get_attr`), the optional `read_buffer`/`get_data` methods (each may
raise), and the `data` property (read through `safe_get_attr`). -/
structure AttObj where
  nameAttr : ReadOutcome String
  sizeAttr : ReadOutcome Int
  hasReadBuffer : Bool
  readBufferResult : Except PyExc (List Nat)
  hasGetData : Bool
  getDataResult : Except PyExc (Option (List Nat))
  dataAttr : ReadOutcome (Option (List Nat))
deriving Repr

/-- Result of `pst_message.get_attachment(i)`: it may raise, return a falsy
object, or return an attachment handle. -/
inductive FetchResult
  | raises (e : PyExc)
  | noneObj
  | obj (a : AttObj)
deriving Repr

/-- The attachment-facing interface of one PST message:
`hasattr(msg, 'number_of_attachments')`, the value of that attribute (reading
it may raise), and `get_attachment(i)` for each index. -/
structure MsgAttachments where
  hasNumberOfAttachments : Bool
  numberOfAttachments : Except PyExc Int
  att : Nat → FetchResult

/-- An entry of the `attachments` list built by `extract_attachments`:
`{'filename': ..., 'size': ..., 'data': ...}` with `data = none` for Python
`None`. -/
structure AttRecord where
  filename : String
  size : Int
  data : Option (List Nat)
deriving DecidableEq, Repr

/-- Python `len(data) if data else 0` (`None` and `b''` both give 0). -/
def pyLen : Option (List Nat) → Nat
  | some l => l.length
  | none => 0

/-- Python truthiness of the recovered `data` field (`None` and `b''` falsy). -/
def truthyData : Option (List Nat) → Bool
  | some (_ :: _) => true
  | _ => false

/-- The tiered data recovery of `extract_attachments` (pst_to_mbox.py:131-150):
try `read_buffer(size)` when the method exists and `size > 0`, then
`get_data()`, then the `data` property via `safe_get_attr`; exceptions from
the first two tiers are caught (`except Exception`) and treated as no data,
while an uncaught exception from the third tier's `safe_get_attr`
propagates. -/
def recoverData (a : AttObj) (size : Int) : Except PyExc (Option (List Nat)) :=
  let d1 : Option (List Nat) :=
    if a.hasReadBuffer ∧ 0 < size then
      match a.readBufferResult with
      | .ok b => some b
      | .error _ => none
    else none
  match d1 with
  | some b => .ok (some b)
  | none =>
    let d2 : Option (List Nat) :=
      if a.hasGetData then
        match a.getDataResult with
        | .ok r => r
        | .error _ => none
      else none
    match d2 with
    | some b => .ok (some b)
    | none => safe_get_attr a.dataAttr none

/-- The body of one iteration of the attachment loop
(pst_to_mbox.py:126-158), up to but excluding the statistics updates:
fetch the handle, read `filename` (`or`-defaulted to `attachment_i`) and
`size`, recover the data, and build the record.  A raised exception is
returned in the `Except` error channel for the surrounding handler. -/
def tryAttachment (i : Nat) (fr : FetchResult) : Except PyExc (Option AttRecord) :=
  match fr with
  | .raises e => .error e
  | .noneObj => .ok none
  | .obj a => do
    let filename0 ← safe_get_attr a.nameAttr ("attachment_" ++ toString i)
    let filename := if filename0 = "" then "attachment_" ++ toString i else filename0
    let size ← safe_get_attr a.sizeAttr 0
    let data ← recoverData a size
    .ok (some { filename := filename, size := size, data := data })

/-- Events recording each statistics mutation and control-flow landmark of
the conversion, in program order. -/
inductive REvent
  | bumpFound (n : Nat)
  | bumpExtracted
  | bumpBytes (n : Nat)
  | warnEmpty
  | skipFailed (i : Nat)
  | abortOuter
  | finalize (ok : Bool)
  | appendRec
  | bumpProcessed
  | bumpFailed
deriving DecidableEq, Repr

/-- The attachment loop `for i in range(attachment_count)`
(pst_to_mbox.py:124-166), producing the `attachments` list and the trace of
statistics events.  An exception from the loop body is caught by the
per-attachment handler only when it is one of the four listed classes
(skip the index and continue); any other exception aborts the loop and is
absorbed by the outer `except Exception` with the records built so far. -/
def extractGo (att : Nat → FetchResult) : Nat → Nat → List AttRecord × List REvent
  | 0, _ => ([], [])
  | n + 1, i =>
    match tryAttachment i (att i) with
    | .error e =>
      if isCaughtBySafeGet e then
        ((extractGo att n (i + 1)).1, REvent.skipFailed i :: (extractGo att n (i + 1)).2)
      else ([], [REvent.abortOuter])
    | .ok none => extractGo att n (i + 1)
    | .ok (some rec) =>
      (rec :: (extractGo att n (i + 1)).1,
        (if pyLen rec.data = 0 ∧ 0 < rec.size then [REvent.warnEmpty]
         else [REvent.bumpExtracted, REvent.bumpBytes (pyLen rec.data)]) ++
          (extractGo att n (i + 1)).2)

/-- Embedding of `PSTToMboxConverter.extract_attachments`
(pst_to_mbox.py:114-170), returning the attachments list together with the
trace of statistics events.  `attachments_found` is incremented by the whole
count up front (only when the count is positive), before the loop runs. -/
def extract_attachments (m : MsgAttachments) : List AttRecord × List REvent :=
  if m.hasNumberOfAttachments then
    match m.numberOfAttachments with
    | .error _ => ([], [])
    | .ok count =>
      if 0 < count then
        ((extractGo m.att count.toNat 0).1,
          REvent.bumpFound count.toNat :: (extractGo m.att count.toNat 0).2)
      else ([], [])
  else ([], [])

/-- The converter's statistics counters. -/
structure Stats where
  processed : Nat
  failed : Nat
  found : Nat
  extracted : Nat
  bytes : Nat
deriving DecidableEq, Repr

/-- All counters zero, as set in `__init__`. -/
def initStats : Stats := ⟨0, 0, 0, 0, 0⟩

/-- Apply one statistics event to the counters. -/
def applyREvent (st : Stats) : REvent → Stats
  | .bumpFound n => { st with found := st.found + n }
  | .bumpExtracted => { st with extracted := st.extracted + 1 }
  | .bumpBytes n => { st with bytes := st.bytes + n }
  | .bumpProcessed => { st with processed := st.processed + 1 }
  | .bumpFailed => { st with failed := st.failed + 1 }
  | _ => st

/-- Apply a trace of events in order. -/
def applyREvents (st : Stats) (l : List REvent) : Stats :=
  l.foldl applyREvent st

/-! ### Record builder: MIME structure selection -/

/-- A leaf MIME part: a text part (`MIMEText(body, subtype, 'utf-8')`) or a
base64-encoded `application/octet-stream` attachment part. -/
inductive MimePart
  | text (subtype : String) (body : String)
  | base64Att (filename : String) (payload : List Nat)
deriving Repr

/-- The assembled MIME tree: a single part or a multipart container. -/
inductive MimeMsg
  | single (p : MimePart)
  | multipart (subtype : String) (parts : List MimeMsg)
deriving Repr

/-- Python bytes of an optional data field, as fed to `set_payload`. -/
def attPayload (d : Option (List Nat)) : List Nat := d.getD []

/-- Embedding of the MIME-structure selection of
`convert_pst_message_to_email` (pst_to_mbox.py:191-232), as a function of the
extracted attachments list and the two (already `or ""`-defaulted) bodies. -/
def buildStructure (attachments : List AttRecord) (body_text body_html : String) : MimeMsg :=
  if attachments ≠ [] then
    MimeMsg.multipart "mixed"
      ((if body_html ≠ "" ∧ body_text ≠ "" then
          [MimeMsg.multipart "alternative"
            [MimeMsg.single (.text "plain" body_text), MimeMsg.single (.text "html" body_html)]]
        else if body_html ≠ "" then [MimeMsg.single (.text "html" body_html)]
        else [MimeMsg.single (.text "plain" (if body_text = "" then "(No content)" else body_text))])
       ++ (attachments.filter (fun a => truthyData a.data)).map
            (fun a => MimeMsg.single (.base64Att a.filename (attPayload a.data))))
  else if body_html ≠ "" ∧ body_text ≠ "" then
    MimeMsg.multipart "alternative"
      [MimeMsg.single (.text "plain" body_text), MimeMsg.single (.text "html" body_html)]
  else if body_html ≠ "" then MimeMsg.single (.text "html" body_html)
  else MimeMsg.single (.text "plain" (if body_text = "" then "(No content)" else body_text))

/-! ### Conversion driver (value level) -/

/-- Outcome of `convert_pst_message_to_email` for one source message as seen
by `process_messages`: a built record, or a raised exception. -/
inductive ConvResult
  | ok (r : MimeMsg)
  | raise (e : PyExc)
deriving Repr

/-- The driver state of `process_messages`: the `processed_emails` and
`failed_emails` counters, the local `message_count`, the records appended to
the mbox so far, and the numbers used in the per-failure log lines
`Failed to process message {message_count}`. -/
structure RunState where
  processed : Nat
  failed : Nat
  messageCount : Nat
  out : List MimeMsg
  failLogs : List Nat
deriving Repr

/-- Initial driver state. -/
def initRun : RunState := ⟨0, 0, 0, [], []⟩

/-- One iteration of the message loop (pst_to_mbox.py:325-345): on success
append the record and increment `processed_emails` and `message_count`; on
any exception increment `failed_emails` and log the error with the current
`message_count`, then continue. -/
def procStep (st : RunState) : ConvResult → RunState
  | .ok r =>
    { st with out := st.out ++ [r], processed := st.processed + 1,
              messageCount := st.messageCount + 1 }
  | .raise _ =>
    { st with failed := st.failed + 1, failLogs := st.failLogs ++ [st.messageCount] }

/-- Embedding of `PSTToMboxConverter.process_messages`
(pst_to_mbox.py:318-350) over the per-message conversion outcomes. -/
def process_messages_run (rs : List ConvResult) : RunState :=
  rs.foldl procStep initRun

/-- The successfully built records, in source order. -/
def okRecords : List ConvResult → List MimeMsg
  | [] => []
  | .ok r :: t => r :: okRecords t
  | .raise _ :: t => okRecords t

/-- Number of messages whose conversion raised. -/
def raisesCount : List ConvResult → Nat
  | [] => 0
  | .ok _ :: t => raisesCount t
  | .raise _ :: t => raisesCount t + 1

/-- The numbers the code actually logs on failures, starting from a given
`message_count`: each failure logs the count of successes so far. -/
def expectedLogs : Nat → List ConvResult → List Nat
  | _, [] => []
  | mc, .ok _ :: t => expectedLogs (mc + 1) t
  | mc, .raise _ :: t => mc :: expectedLogs mc t

/-- Modelled from the spec: the claim's reading of the failure log numbers —
each failing message is logged with its 0-based sequence index in source
iteration order. -/
def specRaiseIndices : Nat → List ConvResult → List Nat
  | _, [] => []
  | i, .ok _ :: t => specRaiseIndices (i + 1) t
  | i, .raise _ :: t => i :: specRaiseIndices (i + 1) t

/-! ### Conversion driver (trace level, for the statistics-ordering claim) -/

/-- One source message as the driver sees it for tracing purposes: whether
conversion raises before reaching attachment extraction, the attachment
interface, and whether conversion (or the mbox append) raises after
extraction has run. -/
structure MsgModel where
  preBuildRaises : Bool
  attach : MsgAttachments
  postBuildRaises : Bool

/-- The statistics-event trace of processing one message: extraction events
happen during `convert_pst_message_to_email`; the outcome is finalized
(success append / exception caught) afterwards, and only then are
`processed_emails` / `failed_emails` mutated. -/
def messageTrace (m : MsgModel) : List REvent :=
  if m.preBuildRaises then [REvent.finalize false, REvent.bumpFailed]
  else
    (extract_attachments m.attach).2 ++
      (if m.postBuildRaises then [REvent.finalize false, REvent.bumpFailed]
       else [REvent.finalize true, REvent.appendRec, REvent.bumpProcessed])

/-- The statistics-event trace of a whole run. -/
def runTrace (msgs : List MsgModel) : List REvent :=
  (msgs.map messageTrace).flatten

/-- The events that mutate `processed_emails` or `failed_emails`. -/
def isPFBump : REvent → Bool
  | .bumpProcessed => true
  | .bumpFailed => true
  | _ => false

/-- The events that mutate any of the five statistics counters. -/
def isCounterBump : REvent → Bool
  | .bumpFound _ => true
  | .bumpExtracted => true
  | .bumpBytes _ => true
  | .bumpProcessed => true
  | .bumpFailed => true
  | _ => false

/-- Componentwise order on the counters. -/
def statsLe (a b : Stats) : Prop :=
  a.processed ≤ b.processed ∧ a.failed ≤ b.failed ∧ a.found ≤ b.found ∧
    a.extracted ≤ b.extracted ∧ a.bytes ≤ b.bytes

/-! ### Lock discipline of `convert` -/

/-- Whether a step of `convert` completes or raises. -/
inductive StepOutcome
  | ok
  | raises
deriving DecidableEq, Repr

/-- Observable events of the `convert` method around the output mbox
(pst_to_mbox.py:366-405). -/
inductive CEvent
  | lock
  | process
  | flush
  | unlock
  | close
  | report (ok : Bool)
deriving DecidableEq, Repr

/-- Overall outcome reported by `convert`: `True` only when both the
processing phase and the flush complete. -/
def convertOk (pO fO : StepOutcome) : Bool :=
  match pO, fO with
  | .ok, .ok => true
  | _, _ => false

/-- Embedding of the locking region of `PSTToMboxConverter.convert`
(pst_to_mbox.py:366-405): after a successful `lock()`, the `try` body runs
`process_messages` then `flush()`, the `finally` block runs `unlock()` and
`close()` on every path, and the outer `try/except` turns any propagated
exception into a logged failure report (`return False`).  When the lock
cannot be acquired the region is never entered and only the failure report
happens. -/
def convertEvents (lockOk : Bool) (pO fO : StepOutcome) : List CEvent :=
  if lockOk then
    CEvent.lock :: CEvent.process ::
      ((if pO = StepOutcome.ok then [CEvent.flush] else []) ++
        [CEvent.unlock, CEvent.close, CEvent.report (convertOk pO fO)])
  else [CEvent.report false]

/-! ### Header recovery: the `From:` regex

The sender-recovery step (pst_to_mbox.py:244-248) runs
`re.search(r'^From:\s*(.+?)\s*<(.+?)>', transport_headers,
re.MULTILINE | re.IGNORECASE)`.  The matcher below embeds exactly that
pattern's semantics over `List Char`: `search` tries every `^`-anchored
position (string start or just after a newline) left to right; within a
position, `\s*` is greedy with backtracking, `(.+?)` is lazy and never
crosses a newline, and the literal label is matched case-insensitively. -/

/-- Lazy `(.+?)>`: the shortest non-empty newline-free group followed by
`>`. -/
def g2scan : List Char → Option (List Char)
  | [] => none
  | c :: rest =>
    if c = '\n' then none
    else
      match rest with
      | '>' :: _ => some [c]
      | _ =>
        match g2scan rest with
        | some g => some (c :: g)
        | none => none

/-- `\s*<(.+?)>` from a given position.  Because `<` is not whitespace, only
the maximal whitespace run can be followed by `<`, so no backtracking is
needed for this inner `\s*`. -/
def tryTail (s : List Char) : Option (List Char) :=
  match s.dropWhile isPySpace with
  | '<' :: r => g2scan r
  | _ => none

/-- Lazy `(.+?)\s*<(.+?)>`: the shortest non-empty newline-free first group
whose tail admits `\s*<(.+?)>`. -/
def g1scan : List Char → Option (List Char × List Char)
  | [] => none
  | c :: rest =>
    if c = '\n' then none
    else
      match tryTail rest with
      | some g2 => some ([c], g2)
      | none =>
        match g1scan rest with
        | some (g1, g2) => some (c :: g1, g2)
        | none => none

/-- Length of the maximal leading whitespace run. -/
def wsRunLen : List Char → Nat
  | [] => 0
  | c :: rest => if isPySpace c then wsRunLen rest + 1 else 0

/-- Greedy-with-backtracking `\s*` before the first group: try consuming
`k, k-1, ..., 0` whitespace characters, preferring more. -/
def s1loop : Nat → List Char → Option (List Char × List Char)
  | 0, s => g1scan s
  | k + 1, s =>
    match g1scan (s.drop (k + 1)) with
    | some r => some r
    | none => s1loop k s

/-- The pattern body after the label: `\s*(.+?)\s*<(.+?)>`. -/
def fromBody (s : List Char) : Option (List Char × List Char) :=
  s1loop (wsRunLen s) s

/-- Attempt the whole pattern at one `^`-anchored position: the literal
`From:` case-insensitively, then the body. -/
def matchAt (s : List Char) : Option (List Char × List Char) :=
  match s with
  | c1 :: c2 :: c3 :: c4 :: c5 :: rest =>
    if (c1 = 'F' ∨ c1 = 'f') ∧ (c2 = 'R' ∨ c2 = 'r') ∧ (c3 = 'O' ∨ c3 = 'o') ∧
        (c4 = 'M' ∨ c4 = 'm') ∧ c5 = ':' then
      fromBody rest
    else none
  | _ => none

/-- `re.search` with `re.MULTILINE`: scan positions left to right, attempting
the pattern only at line starts (`ls` records whether the current position is
one). -/
def searchGo (ls : Bool) : List Char → Option (List Char × List Char)
  | [] => none
  | c :: rest =>
    if ls then
      match matchAt (c :: rest) with
      | some r => some r
      | none => searchGo (c == '\n') rest
    else searchGo (c == '\n') rest

/-- The whole `re.search` over the header blob (position 0 is a line
start). -/
def searchFrom (s : List Char) : Option (List Char × List Char) :=
  searchGo true s

/-- Python `group(1).strip('"')`: remove leading and trailing `"`
characters. -/
def stripQuotes (l : List Char) : List Char :=
  ((l.dropWhile (· = '"')).reverse.dropWhile (· = '"')).reverse

/-- Embedding of the sender-recovery step of `convert_pst_message_to_email`
(pst_to_mbox.py:244-248): when the structured sender email is absent and
transport headers are present, search for the `From:` pattern and, on a
match, replace name and email by the captured groups (the name with
surrounding double quotes stripped). -/
def recoverSender (sender_name sender_email transport_headers : String) :
    String × String :=
  if sender_email = "" ∧ transport_headers ≠ "" then
    match searchFrom transport_headers.data with
    | some (g1, g2) => (⟨stripQuotes g1⟩, ⟨g2⟩)
    | none => (sender_name, sender_email)
  else (sender_name, sender_email)

/-! ### Concrete instances used by the claim theorems -/

/-- A concrete message with zero attachments. -/
def noAttMsg : MsgAttachments :=
  { hasNumberOfAttachments := true, numberOfAttachments := Except.ok 0,
    att := fun _ => FetchResult.noneObj }

/-- A concrete successful record for witnesses. -/
def wRecA : MimeMsg := MimeMsg.single (MimePart.text "plain" "first")

/-- A second concrete successful record for witnesses. -/
def wRecB : MimeMsg := MimeMsg.single (MimePart.text "plain" "second")

/-- Whether processing attachment index `i` reaches the statistics-increment
branch: the handle is fetched, no exception escapes, and it is not the
size-mismatch case (`actual_size == 0 and size > 0`). -/
def succBool (att : Nat → FetchResult) (i : Nat) : Bool :=
  match tryAttachment i (att i) with
  | .ok (some rec) => decide (¬(pyLen rec.data = 0 ∧ 0 < rec.size))
  | _ => false

/-- Bytes credited to `attachment_bytes` by attachment index `i`. -/
def succBytes (att : Nat → FetchResult) (i : Nat) : Nat :=
  match tryAttachment i (att i) with
  | .ok (some rec) =>
    if pyLen rec.data = 0 ∧ 0 < rec.size then 0 else pyLen rec.data
  | _ => 0

/-- Number of indices in `[i, i + n)` that increment
`attachments_extracted`. -/
def countSucc (att : Nat → FetchResult) : Nat → Nat → Nat
  | _, 0 => 0
  | i, n + 1 => (if succBool att i then 1 else 0) + countSucc att (i + 1) n

/-- Total bytes credited over the indices in `[i, i + n)`. -/
def sumBytes (att : Nat → FetchResult) : Nat → Nat → Nat
  | _, 0 => 0
  | i, n + 1 => succBytes att i + sumBytes att (i + 1) n

/-- Whether attachment index `i` does not abort the loop: any exception it
raises is one of the four caught classes. -/
def notAborting (att : Nat → FetchResult) (i : Nat) : Bool :=
  match tryAttachment i (att i) with
  | .error e => isCaughtBySafeGet e
  | _ => true

/-- C2 counterexample object: a fetched attachment with declared size 0 and
no recoverable data. -/
def cexAtt : AttObj :=
  { nameAttr := .val "a", sizeAttr := .val 0, hasReadBuffer := false,
    readBufferResult := .ok [], hasGetData := false, getDataResult := .ok none,
    dataAttr := .noneVal }

/-- The one-attachment message exhibiting the C2 counterexample. -/
def cexMsg : MsgAttachments :=
  { hasNumberOfAttachments := true, numberOfAttachments := .ok 1,
    att := fun _ => .obj cexAtt }

/-- First witness attachment for C2: two recovered bytes. -/
def wAtt0 : AttObj :=
  { nameAttr := .val "doc", sizeAttr := .val 2, hasReadBuffer := true,
    readBufferResult := .ok [1, 2], hasGetData := false, getDataResult := .ok none,
    dataAttr := .missing }

/-- Second witness attachment for C2: declared size 5 but no data (the
size-mismatch warning path, which does not increment). -/
def wAtt1 : AttObj :=
  { nameAttr := .val "empty", sizeAttr := .val 5, hasReadBuffer := false,
    readBufferResult := .ok [], hasGetData := true, getDataResult := .ok none,
    dataAttr := .noneVal }

/-- Witness message for C2: two enumerated attachments. -/
def wMsg : MsgAttachments :=
  { hasNumberOfAttachments := true, numberOfAttachments := .ok 2,
    att := fun i => if i = 0 then .obj wAtt0 else .obj wAtt1 }

/-- The witness attachment for the C8 counterexample: three recovered
bytes. -/
def cexAtt8 : AttObj :=
  { nameAttr := .val "doc", sizeAttr := .val 3, hasReadBuffer := true,
    readBufferResult := .ok [1, 2, 3], hasGetData := false, getDataResult := .ok none,
    dataAttr := .missing }

/-- A message whose attachment extraction succeeds but whose conversion
raises afterwards. -/
def cexMsgModel : MsgModel :=
  { preBuildRaises := false,
    attach := { hasNumberOfAttachments := true, numberOfAttachments := .ok 1,
                att := fun _ => .obj cexAtt8 },
    postBuildRaises := true }

/-- The header line of the claim C6 scenario. -/
def jline : List Char := "From: Jane Doe <jane@example.com>".data

/-- A benign leading header line for the C6 witness. -/
def preLine : List Char := "X-Mailer: test\n".data

/-! ### Helper lemmas -/

lemma b64Table_ascii : ∀ c ∈ b64Table, c.toNat < 128 := by decide

lemma b64Char_ascii (n : Nat) : (b64Char n).toNat < 128 := by
  unfold b64Char
  by_cases h : n < b64Table.length
  · have heq : b64Table.getD n 'A' = b64Table[n] := by
      simp [List.getD_eq_getElem?_getD, List.getElem?_eq_getElem h]
    rw [heq]
    exact b64Table_ascii _ (List.getElem_mem h)
  · have hlen : b64Table.length ≤ n := Nat.le_of_not_lt h
    have heq : b64Table.getD n 'A' = 'A' := by
      simp [List.getD_eq_getElem?_getD, List.getElem?_eq_none hlen]
    rw [heq]
    decide

lemma base64Encode_ascii_aux :
    ∀ (N : Nat) (bs : List Nat), bs.length ≤ N → ∀ c ∈ base64Encode bs, c.toNat < 128 := by
  intro N
  induction N with
  | zero =>
    intro bs h c hc
    have hbs : bs = [] := List.length_eq_zero.mp (Nat.le_zero.mp h)
    subst hbs
    simp [base64Encode] at hc
  | succ N ih =>
    intro bs h c hc
    match bs with
    | [] => simp [base64Encode] at hc
    | [b1] =>
      simp only [base64Encode, List.mem_cons, List.not_mem_nil, or_false] at hc
      rcases hc with h1 | h1 | h1 | h1 <;> subst h1 <;> first | exact b64Char_ascii _ | decide
    | [b1, b2] =>
      simp only [base64Encode, List.mem_cons, List.not_mem_nil, or_false] at hc
      rcases hc with h1 | h1 | h1 | h1 <;> subst h1 <;> first | exact b64Char_ascii _ | decide
    | b1 :: b2 :: b3 :: rest =>
      simp only [base64Encode, List.mem_cons] at hc
      rcases hc with h1 | h1 | h1 | h1 | h1
      · subst h1; exact b64Char_ascii _
      · subst h1; exact b64Char_ascii _
      · subst h1; exact b64Char_ascii _
      · subst h1; exact b64Char_ascii _
      · refine ih rest ?_ c h1
        simp only [List.length_cons] at h
        omega

lemma base64Encode_ascii (bs : List Nat) : ∀ c ∈ base64Encode bs, c.toNat < 128 :=
  base64Encode_ascii_aux bs.length bs le_rfl

lemma headerEncodeUtf8_ascii (nm : String) :
    ∀ c ∈ (headerEncodeUtf8 nm).data, c.toNat < 128 := by
  intro c hc
  simp only [headerEncodeUtf8, List.mem_append] at hc
  rcases hc with (hc | hc) | hc
  · have hall : ∀ x ∈ "=?utf-8?b?".data, x.toNat < 128 := by decide
    exact hall c hc
  · exact base64Encode_ascii _ c hc
  · have hall : ∀ x ∈ "?=".data, x.toNat < 128 := by decide
    exact hall c hc

lemma pyStrip_empty : pyStrip "" = "" := rfl

/-! ### Claim C4 -/

/-- C4: for every record, field name and default, the safe field accessor
never propagates a decode, range or encoding failure of the field read: it
returns the supplied default on every such exception. -/
theorem safe_get_attr_returns_default_on_failure :
    ∀ (e : PyExc), isDecodeRangeOrEncodingFailure e = true →
      ∀ (d : String), safe_get_attr (ReadOutcome.exc e) d = Except.ok d := by
  intro e he d
  cases e <;> simp_all [safe_get_attr, isCaughtBySafeGet, isDecodeRangeOrEncodingFailure]

/-- Witness for C4 at a concrete decode failure and default. -/
theorem safe_get_attr_returns_default_on_failure_witness :
    isDecodeRangeOrEncodingFailure PyExc.unicodeDecodeError = true ∧
      safe_get_attr (ReadOutcome.exc PyExc.unicodeDecodeError) "dflt" = Except.ok "dflt" :=
  ⟨by decide,
   safe_get_attr_returns_default_on_failure PyExc.unicodeDecodeError (by decide) "dflt"⟩

/-! ### Claim C10 -/

/-- C10: a field read that succeeds with `None` makes the accessor return the
supplied default, indistinguishable from a missing field. -/
theorem safe_get_attr_none_gives_default :
    ∀ (d : String),
      safe_get_attr (ReadOutcome.noneVal : ReadOutcome String) d = Except.ok d ∧
        safe_get_attr (ReadOutcome.noneVal : ReadOutcome String) d =
          safe_get_attr (ReadOutcome.missing : ReadOutcome String) d := by
  intro d
  exact ⟨rfl, rfl⟩

/-! ### Claim C5 -/

/-- C5 counterexample: the name `" "` is non-empty and all-ASCII, so the
claim as stated demands `" " ++ " <a@b>"`, but the code's
`if name and name.strip():` guard sends a whitespace-only name down the
bare-address path. -/
theorem format_email_address_blank_name_cex :
    format_email_address "a@b" (some " ") = "a@b" ∧
      format_email_address "a@b" (some " ") ≠ " " ++ " <" ++ "a@b" ++ ">" := by
  decide

/-- C5 amended: empty address gives the empty string; a name that is
non-empty after stripping whitespace gives `name <address>` when pure ASCII
and an all-ASCII RFC 2047 encoded-word followed by the unchanged
`<address>` suffix otherwise; a missing or whitespace-only name gives the
bare address. -/
theorem format_email_address_cases :
    ∀ (address : String) (name : Option String),
      (address = "" → format_email_address address name = "") ∧
      (∀ n, address ≠ "" → name = some n → pyStrip n ≠ "" → isAsciiStr n = true →
        format_email_address address name = n ++ " <" ++ address ++ ">") ∧
      (∀ n, address ≠ "" → name = some n → pyStrip n ≠ "" → isAsciiStr n = false →
        format_email_address address name = headerEncodeUtf8 n ++ " <" ++ address ++ ">" ∧
          ∀ c ∈ (headerEncodeUtf8 n).data, c.toNat < 128) ∧
      (address ≠ "" → (name = none ∨ ∃ n, name = some n ∧ pyStrip n = "") →
        format_email_address address name = address) := by
  intro address name
  refine ⟨?_, ?_, ?_, ?_⟩
  · intro h
    simp [format_email_address, h]
  · intro n hne hsome hstrip hascii
    subst hsome
    have hn : n ≠ "" := fun h => hstrip (by rw [h]; rfl)
    simp [format_email_address, hne, hn, hstrip, hascii]
  · intro n hne hsome hstrip hascii
    subst hsome
    have hn : n ≠ "" := fun h => hstrip (by rw [h]; rfl)
    refine ⟨?_, headerEncodeUtf8_ascii n⟩
    simp [format_email_address, hne, hn, hstrip, hascii]
  · intro hne h
    rcases h with h | ⟨n, hsome, hstrip⟩
    · subst h; simp [format_email_address, hne]
    · subst hsome; simp [format_email_address, hne, hstrip]

/-- Witness for C5 amended at concrete inputs for each case. -/
theorem format_email_address_cases_witness :
    format_email_address "" (some "Bob") = "" ∧
      format_email_address "a@b" (some "Bob") = "Bob" ++ " <" ++ "a@b" ++ ">" ∧
      (format_email_address "a@b" (some "Héllo") =
          headerEncodeUtf8 "Héllo" ++ " <" ++ "a@b" ++ ">" ∧
        ∀ c ∈ (headerEncodeUtf8 "Héllo").data, c.toNat < 128) ∧
      format_email_address "a@b" (some " ") = "a@b" :=
  ⟨(format_email_address_cases "" (some "Bob")).1 rfl,
   (format_email_address_cases "a@b" (some "Bob")).2.1 "Bob" (by decide) rfl (by decide)
     (by decide),
   (format_email_address_cases "a@b" (some "Héllo")).2.2.1 "Héllo" (by decide) rfl (by decide)
     (by decide),
   (format_email_address_cases "a@b" (some " ")).2.2.2 (by decide)
     (Or.inr ⟨" ", rfl, by decide⟩)⟩

/-! ### Claim C1 -/

lemma extract_zero_count (m : MsgAttachments) (h1 : m.hasNumberOfAttachments = true)
    (h2 : m.numberOfAttachments = Except.ok 0) : (extract_attachments m).1 = [] := by
  simp [extract_attachments, h1, h2]

/-- C1: a message whose attachment count reads as zero and whose plain and
HTML bodies are both non-empty is built as a multipart/alternative with
exactly two parts, the plain part first and the HTML part second. -/
theorem convert_no_attachments_both_bodies_alternative :
    ∀ (m : MsgAttachments) (bt bh : String),
      m.hasNumberOfAttachments = true → m.numberOfAttachments = Except.ok 0 →
      bt ≠ "" → bh ≠ "" →
      buildStructure (extract_attachments m).1 bt bh =
        MimeMsg.multipart "alternative"
          [MimeMsg.single (MimePart.text "plain" bt),
           MimeMsg.single (MimePart.text "html" bh)] := by
  intro m bt bh h1 h2 hbt hbh
  rw [extract_zero_count m h1 h2]
  simp [buildStructure, hbt, hbh]

/-- Witness for C1 at a concrete message and bodies. -/
theorem convert_no_attachments_both_bodies_alternative_witness :
    buildStructure (extract_attachments noAttMsg).1 "plain body" "html body" =
      MimeMsg.multipart "alternative"
        [MimeMsg.single (MimePart.text "plain" "plain body"),
         MimeMsg.single (MimePart.text "html" "html body")] :=
  convert_no_attachments_both_bodies_alternative noAttMsg "plain body" "html body" rfl rfl
    (by decide) (by decide)

/-! ### Driver lemmas and claims C3, C9 -/

lemma procRun_foldl :
    ∀ (rs : List ConvResult) (st : RunState),
      rs.foldl procStep st =
        { processed := st.processed + (okRecords rs).length,
          failed := st.failed + raisesCount rs,
          messageCount := st.messageCount + (okRecords rs).length,
          out := st.out ++ okRecords rs,
          failLogs := st.failLogs ++ expectedLogs st.messageCount rs } := by
  intro rs
  induction rs with
  | nil =>
    intro st
    simp [okRecords, raisesCount, expectedLogs]
  | cons r t ih =>
    intro st
    cases r with
    | ok rec =>
      simp only [List.foldl_cons, procStep]
      rw [ih]
      simp only [okRecords, raisesCount, expectedLogs, RunState.mk.injEq, List.length_cons,
        List.append_assoc, List.singleton_append, and_true, true_and]
      omega
    | raise e =>
      simp only [List.foldl_cons, procStep]
      rw [ih]
      simp only [okRecords, raisesCount, expectedLogs, RunState.mk.injEq,
        List.append_assoc, List.singleton_append, and_true, true_and]
      omega

lemma okRecords_append (a b : List ConvResult) :
    okRecords (a ++ b) = okRecords a ++ okRecords b := by
  induction a with
  | nil => simp [okRecords]
  | cons r t ih => cases r <;> simp [okRecords, ih]

lemma raisesCount_append (a b : List ConvResult) :
    raisesCount (a ++ b) = raisesCount a + raisesCount b := by
  induction a with
  | nil => simp [raisesCount]
  | cons r t ih =>
    cases r with
    | ok rec => simp [raisesCount, ih]
    | raise e =>
      simp [raisesCount, ih]
      omega

lemma okRecords_length_all_ok (A : List ConvResult)
    (h : ∀ x ∈ A, ∃ r, x = ConvResult.ok r) : (okRecords A).length = A.length := by
  induction A with
  | nil => rfl
  | cons r t ih =>
    obtain ⟨rr, hr⟩ := h r (List.mem_cons_self r t)
    subst hr
    simp only [okRecords, List.length_cons]
    rw [ih (fun x hx => h x (List.mem_cons_of_mem _ hx))]

lemma raisesCount_all_ok (A : List ConvResult)
    (h : ∀ x ∈ A, ∃ r, x = ConvResult.ok r) : raisesCount A = 0 := by
  induction A with
  | nil => rfl
  | cons r t ih =>
    obtain ⟨rr, hr⟩ := h r (List.mem_cons_self r t)
    subst hr
    simp only [raisesCount]
    exact ih (fun x hx => h x (List.mem_cons_of_mem _ hx))

/-- C3: a batch in which exactly one message raises during record building
and all others convert finishes with `processed = N - 1`, `failed = 1`, and
the output containing the successful records in their original relative
order. -/
theorem process_single_failure_stats :
    ∀ (A B : List ConvResult) (e : PyExc),
      (∀ x ∈ A, ∃ r, x = ConvResult.ok r) →
      (∀ x ∈ B, ∃ r, x = ConvResult.ok r) →
      (process_messages_run (A ++ ConvResult.raise e :: B)).processed + 1 =
          (A ++ ConvResult.raise e :: B).length ∧
        (process_messages_run (A ++ ConvResult.raise e :: B)).failed = 1 ∧
        (process_messages_run (A ++ ConvResult.raise e :: B)).out =
          okRecords A ++ okRecords B := by
  intro A B e hA hB
  unfold process_messages_run
  rw [procRun_foldl]
  have hok : okRecords (A ++ ConvResult.raise e :: B) = okRecords A ++ okRecords B := by
    rw [okRecords_append]
    simp [okRecords]
  have hrc : raisesCount (A ++ ConvResult.raise e :: B) = 1 := by
    rw [raisesCount_append]
    simp [raisesCount, raisesCount_all_ok A hA, raisesCount_all_ok B hB]
  refine ⟨?_, ?_, ?_⟩
  · simp only [initRun, hok, List.length_append, List.length_cons]
    have h1 := okRecords_length_all_ok A hA
    have h2 := okRecords_length_all_ok B hB
    simp [List.length_append, h1, h2]
    omega
  · simp [initRun, hrc]
  · simp [initRun, hok]

/-- Witness for C3: three messages, the middle one raising. -/
theorem process_single_failure_stats_witness :
    (process_messages_run ([ConvResult.ok wRecA] ++
          ConvResult.raise PyExc.valueError :: [ConvResult.ok wRecB])).processed + 1 =
        ([ConvResult.ok wRecA] ++ ConvResult.raise PyExc.valueError ::
          [ConvResult.ok wRecB]).length ∧
      (process_messages_run ([ConvResult.ok wRecA] ++
          ConvResult.raise PyExc.valueError :: [ConvResult.ok wRecB])).failed = 1 ∧
      (process_messages_run ([ConvResult.ok wRecA] ++
          ConvResult.raise PyExc.valueError :: [ConvResult.ok wRecB])).out =
        okRecords [ConvResult.ok wRecA] ++ okRecords [ConvResult.ok wRecB] :=
  process_single_failure_stats [ConvResult.ok wRecA] [ConvResult.ok wRecB] PyExc.valueError
    (by
      intro x hx
      simp only [List.mem_singleton] at hx
      exact ⟨wRecA, hx⟩)
    (by
      intro x hx
      simp only [List.mem_singleton] at hx
      exact ⟨wRecB, hx⟩)

/-- C9 counterexample: in a batch of two messages that both raise, the second
failure is logged with `message_count = 0` (the number of successes so far),
not with its 0-based source index 1. -/
theorem fail_log_index_cex :
    (process_messages_run
          [ConvResult.raise PyExc.valueError, ConvResult.raise PyExc.valueError]).failLogs =
        [0, 0] ∧
      specRaiseIndices 0
          [ConvResult.raise PyExc.valueError, ConvResult.raise PyExc.valueError] =
        [0, 1] ∧
      (process_messages_run
          [ConvResult.raise PyExc.valueError, ConvResult.raise PyExc.valueError]).failLogs ≠
        specRaiseIndices 0
          [ConvResult.raise PyExc.valueError, ConvResult.raise PyExc.valueError] := by
  refine ⟨rfl, rfl, ?_⟩
  decide

/-- C9 amended: on every exception the driver increments `failed`, logs the
error with the current count of successfully processed messages (which equals
the 0-based source index only while no earlier message has failed), and
continues: all successes are still processed. -/
theorem fail_log_equals_processed_count :
    ∀ (rs : List ConvResult),
      (process_messages_run rs).failLogs = expectedLogs 0 rs ∧
        (process_messages_run rs).failed = raisesCount rs ∧
        (process_messages_run rs).processed = (okRecords rs).length := by
  intro rs
  unfold process_messages_run
  rw [procRun_foldl]
  simp [initRun]

/-! ### Claim C7: lock discipline -/

/-- C7: once the output mbox lock has been acquired, every path through
`convert` — normal completion, an exception from processing, or an exception
from the flush — releases the lock exactly once, before the run reports its
outcome. -/
theorem convert_lock_released_once :
    ∀ (pO fO : StepOutcome),
      (convertEvents true pO fO).count CEvent.unlock = 1 ∧
        ∃ pre, convertEvents true pO fO =
            CEvent.lock :: pre ++
              [CEvent.unlock, CEvent.close, CEvent.report (convertOk pO fO)] ∧
          CEvent.unlock ∉ pre := by
  intro pO fO
  cases pO with
  | ok =>
    cases fO <;> exact ⟨by decide, [CEvent.process, CEvent.flush], by decide, by decide⟩
  | raises =>
    cases fO <;> exact ⟨by decide, [CEvent.process], by decide, by decide⟩

/-! ### Claim C2: attachment statistics -/

lemma extractGo_stats (att : Nat → FetchResult) :
    ∀ (n i : Nat) (st : Stats), (∀ k, k < n → notAborting att (i + k) = true) →
      applyREvents st (extractGo att n i).2 =
        { st with extracted := st.extracted + countSucc att i n,
                  bytes := st.bytes + sumBytes att i n } := by
  intro n
  induction n with
  | zero =>
    intro i st _
    simp [extractGo, applyREvents, countSucc, sumBytes]
  | succ n ih =>
    intro i st h
    have h0 : notAborting att i = true := by
      have := h 0 (Nat.succ_pos n)
      simpa using this
    have hs : ∀ k, k < n → notAborting att ((i + 1) + k) = true := by
      intro k hk
      have hh := h (k + 1) (by omega)
      have heq : i + (k + 1) = (i + 1) + k := by omega
      rwa [heq] at hh
    cases htry : tryAttachment i (att i) with
    | error e =>
      have hc : isCaughtBySafeGet e = true := by
        unfold notAborting at h0
        rw [htry] at h0
        exact h0
      have hgo : (extractGo att (n + 1) i).2 =
          REvent.skipFailed i :: (extractGo att n (i + 1)).2 := by
        simp [extractGo, htry, hc]
      rw [hgo]
      have hstep : applyREvents st (REvent.skipFailed i :: (extractGo att n (i + 1)).2) =
          applyREvents st (extractGo att n (i + 1)).2 := rfl
      rw [hstep, ih (i + 1) st hs]
      have hsb : succBool att i = false := by
        unfold succBool
        rw [htry]
      have hby : succBytes att i = 0 := by
        unfold succBytes
        rw [htry]
      simp [countSucc, sumBytes, hsb, hby]
    | ok orec =>
      cases orec with
      | none =>
        have hgo : (extractGo att (n + 1) i).2 = (extractGo att n (i + 1)).2 := by
          simp [extractGo, htry]
        rw [hgo, ih (i + 1) st hs]
        have hsb : succBool att i = false := by
          unfold succBool
          rw [htry]
        have hby : succBytes att i = 0 := by
          unfold succBytes
          rw [htry]
        simp [countSucc, sumBytes, hsb, hby]
      | some rec =>
        by_cases hcond : pyLen rec.data = 0 ∧ 0 < rec.size
        · have hgo : (extractGo att (n + 1) i).2 =
              REvent.warnEmpty :: (extractGo att n (i + 1)).2 := by
            simp [extractGo, htry, hcond]
          rw [hgo]
          have hstep : applyREvents st (REvent.warnEmpty :: (extractGo att n (i + 1)).2) =
              applyREvents st (extractGo att n (i + 1)).2 := rfl
          rw [hstep, ih (i + 1) st hs]
          have hsb : succBool att i = false := by
            unfold succBool
            rw [htry]
            simp [hcond]
          have hby : succBytes att i = 0 := by
            unfold succBytes
            rw [htry]
            simp [hcond]
          simp [countSucc, sumBytes, hsb, hby]
        · have hgo : (extractGo att (n + 1) i).2 =
              REvent.bumpExtracted :: REvent.bumpBytes (pyLen rec.data) ::
                (extractGo att n (i + 1)).2 := by
            simp [extractGo, htry, hcond]
          rw [hgo]
          have hstep : applyREvents st
              (REvent.bumpExtracted :: REvent.bumpBytes (pyLen rec.data) ::
                (extractGo att n (i + 1)).2) =
              applyREvents
                { st with extracted := st.extracted + 1, bytes := st.bytes + pyLen rec.data }
                (extractGo att n (i + 1)).2 := rfl
          rw [hstep, ih (i + 1) _ hs]
          have hsb : succBool att i = true := by
            unfold succBool
            rw [htry]
            simp [hcond]
          have hby : succBytes att i = pyLen rec.data := by
            unfold succBytes
            rw [htry]
            simp [hcond]
          simp only [countSucc, sumBytes, hsb, hby, if_true, Stats.mk.injEq, and_true, true_and]
          omega

/-- C2 counterexample theorem: every recovered byte length in this message is
0, but `attachments_extracted` still ends at 1, refuting the claimed
"increments iff recovered byte length > 0". -/
theorem extract_extracted_without_data_cex :
    (applyREvents initStats (extract_attachments cexMsg).2).extracted = 1 ∧
      ∀ r ∈ (extract_attachments cexMsg).1, pyLen r.data = 0 := by
  decide

/-- C2 amended: `attachments_found` increments exactly once per enumerated
index; on a non-aborting run, `attachments_extracted` increments exactly for
the fetched attachments that do not hit the size-mismatch guard
(`actual_size == 0 and size > 0`) — in particular also when both the
recovered length and the declared size are 0 — and `attachment_bytes` grows
by the recovered length exactly on those increments. -/
theorem extract_stats_characterization :
    ∀ (m : MsgAttachments) (count : Int),
      m.hasNumberOfAttachments = true →
      m.numberOfAttachments = Except.ok count →
      0 < count →
      (∀ k, k < count.toNat → notAborting m.att k = true) →
      applyREvents initStats (extract_attachments m).2 =
        { processed := 0, failed := 0, found := count.toNat,
          extracted := countSucc m.att 0 count.toNat,
          bytes := sumBytes m.att 0 count.toNat } := by
  intro m count h1 h2 h3 h4
  have hev : (extract_attachments m).2 =
      REvent.bumpFound count.toNat :: (extractGo m.att count.toNat 0).2 := by
    simp [extract_attachments, h1, h2, h3]
  rw [hev]
  have hstep : applyREvents initStats
      (REvent.bumpFound count.toNat :: (extractGo m.att count.toNat 0).2) =
      applyREvents (applyREvent initStats (REvent.bumpFound count.toNat))
        (extractGo m.att count.toNat 0).2 := rfl
  rw [hstep, extractGo_stats m.att count.toNat 0 _ (fun k hk => by simpa using h4 k hk)]
  simp [applyREvent, initStats]

/-- Witness for C2 amended at a concrete two-attachment message. -/
theorem extract_stats_characterization_witness :
    applyREvents initStats (extract_attachments wMsg).2 =
      { processed := 0, failed := 0, found := (2 : Int).toNat,
        extracted := countSucc wMsg.att 0 (2 : Int).toNat,
        bytes := sumBytes wMsg.att 0 (2 : Int).toNat } :=
  extract_stats_characterization wMsg 2 rfl rfl (by decide) (by decide)

/-! ### Claim C8: statistics monotonicity and mutation order -/

lemma statsLe_refl (st : Stats) : statsLe st st := by
  simp [statsLe]

lemma statsLe_trans {a b c : Stats} (h1 : statsLe a b) (h2 : statsLe b c) : statsLe a c := by
  unfold statsLe at h1 h2 ⊢
  omega

lemma applyREvent_mono (st : Stats) (e : REvent) : statsLe st (applyREvent st e) := by
  cases e
  all_goals simp [applyREvent, statsLe]

lemma applyREvents_mono : ∀ (l : List REvent) (st : Stats), statsLe st (applyREvents st l) := by
  intro l
  induction l with
  | nil => intro st; exact statsLe_refl st
  | cons e t ih =>
    intro st
    exact statsLe_trans (applyREvent_mono st e) (ih (applyREvent st e))

lemma applyREvents_append (st : Stats) (a b : List REvent) :
    applyREvents st (a ++ b) = applyREvents (applyREvents st a) b := by
  simp [applyREvents, List.foldl_append]

lemma extractGo_no_pf (att : Nat → FetchResult) :
    ∀ (n i : Nat), ∀ e ∈ (extractGo att n i).2, isPFBump e = false := by
  intro n
  induction n with
  | zero =>
    intro i e he
    simp [extractGo] at he
  | succ n ih =>
    intro i e he
    cases htry : tryAttachment i (att i) with
    | error exc =>
      by_cases hc : isCaughtBySafeGet exc = true
      · rw [show (extractGo att (n + 1) i).2 =
            REvent.skipFailed i :: (extractGo att n (i + 1)).2 by simp [extractGo, htry, hc]]
          at he
        rcases List.mem_cons.mp he with h | h
        · subst h; rfl
        · exact ih (i + 1) e h
      · rw [show (extractGo att (n + 1) i).2 = [REvent.abortOuter] by
            simp [extractGo, htry, hc]] at he
        simp at he
        subst he
        rfl
    | ok orec =>
      cases orec with
      | none =>
        rw [show (extractGo att (n + 1) i).2 = (extractGo att n (i + 1)).2 by
            simp [extractGo, htry]] at he
        exact ih (i + 1) e he
      | some rec =>
        by_cases hcond : pyLen rec.data = 0 ∧ 0 < rec.size
        · rw [show (extractGo att (n + 1) i).2 =
              REvent.warnEmpty :: (extractGo att n (i + 1)).2 by
              simp [extractGo, htry, hcond]] at he
          rcases List.mem_cons.mp he with h | h
          · subst h; rfl
          · exact ih (i + 1) e h
        · rw [show (extractGo att (n + 1) i).2 =
              REvent.bumpExtracted :: REvent.bumpBytes (pyLen rec.data) ::
                (extractGo att n (i + 1)).2 by
              simp [extractGo, htry, hcond]] at he
          rcases List.mem_cons.mp he with h | h
          · subst h; rfl
          rcases List.mem_cons.mp h with h2 | h2
          · subst h2; rfl
          · exact ih (i + 1) e h2

lemma extract_no_pf (m : MsgAttachments) :
    ∀ e ∈ (extract_attachments m).2, isPFBump e = false := by
  intro e he
  by_cases h1 : m.hasNumberOfAttachments
  · cases h2 : m.numberOfAttachments with
    | error exc =>
      rw [show (extract_attachments m).2 = [] by simp [extract_attachments, h1, h2]] at he
      simp at he
    | ok count =>
      by_cases h3 : (0 : Int) < count
      · rw [show (extract_attachments m).2 =
            REvent.bumpFound count.toNat :: (extractGo m.att count.toNat 0).2 by
            simp [extract_attachments, h1, h2, h3]] at he
        rcases List.mem_cons.mp he with h | h
        · subst h; rfl
        · exact extractGo_no_pf m.att count.toNat 0 e h
      · rw [show (extract_attachments m).2 = [] by
            simp [extract_attachments, h1, h2, h3]] at he
        simp at he
  · rw [show (extract_attachments m).2 = [] by simp [extract_attachments, h1]] at he
    simp at he

/-- C8 amended: the statistics counters only ever increase along the run's
event trace, and `processed_emails` / `failed_emails` are mutated only after
a message's outcome is finalized — but the attachment counters are mutated
during extraction, before the outcome of their message is known. -/
theorem stats_monotone_and_outcome_order :
    ∀ (msgs : List MsgModel) (n : Nat) (m : MsgModel),
      statsLe (applyREvents initStats ((runTrace msgs).take n))
          (applyREvents initStats ((runTrace msgs).take (n + 1))) ∧
        ∃ pre b tail, messageTrace m = pre ++ REvent.finalize b :: tail ∧
          ∀ e ∈ pre, isPFBump e = false := by
  intro msgs n m
  constructor
  · rw [List.take_succ, applyREvents_append]
    exact applyREvents_mono _ _
  · by_cases hpre : m.preBuildRaises
    · exact ⟨[], false, [REvent.bumpFailed], by simp [messageTrace, hpre], by simp⟩
    · by_cases hpost : m.postBuildRaises
      · exact ⟨(extract_attachments m.attach).2, false, [REvent.bumpFailed],
          by simp [messageTrace, hpre, hpost], extract_no_pf m.attach⟩
      · exact ⟨(extract_attachments m.attach).2, true,
          [REvent.appendRec, REvent.bumpProcessed],
          by simp [messageTrace, hpre, hpost], extract_no_pf m.attach⟩

/-- C8 counterexample: in the trace of a message that fails after attachment
extraction, the very first event is already a counter mutation
(`attachments_found`), with no outcome finalization before it — refuting
"each counter is mutated only after the message's outcome is finalized". -/
theorem stats_counter_before_finalize_cex :
    ¬ (∀ (i : Nat) (e : REvent), (messageTrace cexMsgModel)[i]? = some e →
        isCounterBump e = true →
        ∃ j, j < i ∧ ∃ b, (messageTrace cexMsgModel)[j]? = some (REvent.finalize b)) := by
  intro h
  obtain ⟨j, hj, -⟩ := h 0 (REvent.bumpFound 1) (by decide) (by decide)
  exact absurd hj (Nat.not_lt_zero j)

/-! ### Claim C6: sender recovery from transport headers -/

lemma matchAt_jline (rest : List Char) :
    matchAt (jline ++ rest) = some ("Jane Doe".data, "jane@example.com".data) := rfl

lemma searchGo_walk_false :
    ∀ (l b : List Char), l ≠ [] → l.getLast? = some '\n' →
      (∀ c ∈ l.dropLast, c ≠ '\n') →
      searchGo false (l ++ b) = searchGo true b := by
  intro l
  induction l with
  | nil =>
    intro b h
    exact absurd rfl h
  | cons c t ih =>
    intro b _ hlast hmid
    cases t with
    | nil =>
      have hc : c = '\n' := by simpa using hlast
      subst hc
      simp [searchGo]
    | cons c2 t2 =>
      have hc : c ≠ '\n' := hmid c (by simp [List.dropLast])
      have hlast2 : (c2 :: t2).getLast? = some '\n' := by
        simpa [List.getLast?_cons_cons] using hlast
      have hmid2 : ∀ x ∈ (c2 :: t2).dropLast, x ≠ '\n' := by
        intro x hx
        exact hmid x (by simp [List.dropLast, hx])
      have hstep : searchGo false ((c :: c2 :: t2) ++ b) =
          searchGo (c == '\n') ((c2 :: t2) ++ b) := by
        simp [searchGo]
      rw [hstep, show (c == '\n') = false by simp [hc]]
      exact ih b (by simp) hlast2 hmid2

lemma searchGo_through_line (l b : List Char) (hne : l ≠ [])
    (hlast : l.getLast? = some '\n') (hmid : ∀ c ∈ l.dropLast, c ≠ '\n')
    (hm : matchAt (l ++ b) = none) :
    searchGo true (l ++ b) = searchGo true b := by
  cases l with
  | nil => exact absurd rfl hne
  | cons c t =>
    simp only [List.cons_append] at hm
    have hstep : searchGo true ((c :: t) ++ b) = searchGo (c == '\n') (t ++ b) := by
      simp [searchGo, hm]
    rw [hstep]
    cases t with
    | nil =>
      have hc : c = '\n' := by simpa using hlast
      subst hc
      simp
    | cons c2 t2 =>
      have hc : c ≠ '\n' := hmid c (by simp [List.dropLast])
      rw [show (c == '\n') = false by simp [hc]]
      exact searchGo_walk_false (c2 :: t2) b (by simp)
        (by simpa [List.getLast?_cons_cons] using hlast)
        (fun x hx => hmid x (by simp [List.dropLast, hx]))

lemma searchGo_cons_match (c : Char) (rest : List Char) (r : List Char × List Char)
    (h : matchAt (c :: rest) = some r) : searchGo true (c :: rest) = some r := by
  simp [searchGo, h]

lemma searchFrom_lines :
    ∀ (lines : List (List Char)) (post : List Char),
      (∀ l ∈ lines, l ≠ [] ∧ l.getLast? = some '\n' ∧ ∀ c ∈ l.dropLast, c ≠ '\n') →
      (∀ ls, ls <:+ lines → ls ≠ [] → matchAt (ls.flatten ++ jline ++ post) = none) →
      searchGo true (lines.flatten ++ jline ++ post) =
        some ("Jane Doe".data, "jane@example.com".data) := by
  intro lines
  induction lines with
  | nil =>
    intro post _ _
    have h1 : ([] : List (List Char)).flatten ++ jline ++ post =
        'F' :: ("rom: Jane Doe <jane@example.com>".data ++ post) := rfl
    rw [h1]
    exact searchGo_cons_match _ _ _ (matchAt_jline post)
  | cons l ls ih =>
    intro post hline hfail
    have hl := hline l (List.mem_cons_self l ls)
    have hshape : (l :: ls).flatten ++ jline ++ post =
        l ++ (ls.flatten ++ jline ++ post) := by
      simp [List.append_assoc]
    rw [hshape]
    have hm : matchAt (l ++ (ls.flatten ++ jline ++ post)) = none := by
      have := hfail (l :: ls) (List.suffix_refl _) (by simp)
      rw [hshape] at this
      exact this
    rw [searchGo_through_line l _ hl.1 hl.2.1 hl.2.2 hm]
    exact ih post (fun x hx => hline x (List.mem_cons_of_mem _ hx))
      (fun s hs hne => hfail s (hs.trans (List.suffix_cons l ls)) hne)

/-- C6 counterexample: headers containing the line
`From: Jane Doe <jane@example.com>` but with an earlier matching `From:`
line recover the earlier sender, not Jane Doe, because `re.search` returns
the first match. -/
theorem recover_sender_earlier_from_line_cex :
    recoverSender "" "" "From: Bob Smith <bob@x.com>\nFrom: Jane Doe <jane@example.com>" =
        ("Bob Smith", "bob@x.com") ∧
      recoverSender "" "" "From: Bob Smith <bob@x.com>\nFrom: Jane Doe <jane@example.com>" ≠
        ("Jane Doe", "jane@example.com") := by
  constructor
  · decide
  · decide

/-- C6 amended: when the structured sender email is absent and the transport
headers consist of newline-terminated lines none of which matches the
`From:` pattern, followed by the line `From: Jane Doe <jane@example.com>`
(the first match of the search), recovery yields
`senderName = "Jane Doe"` and `senderEmail = "jane@example.com"`. -/
theorem recover_sender_first_match_jane :
    ∀ (lines : List (List Char)) (post : List Char) (sn : String),
      (∀ l ∈ lines, l ≠ [] ∧ l.getLast? = some '\n' ∧ ∀ c ∈ l.dropLast, c ≠ '\n') →
      (∀ ls, ls <:+ lines → ls ≠ [] → matchAt (ls.flatten ++ jline ++ post) = none) →
      recoverSender sn "" ⟨lines.flatten ++ jline ++ post⟩ =
        ("Jane Doe", "jane@example.com") := by
  intro lines post sn hline hfail
  unfold recoverSender
  have hne : (⟨lines.flatten ++ jline ++ post⟩ : String) ≠ "" := by
    intro hcontra
    have h0 : lines.flatten ++ jline ++ post = [] := congrArg String.data hcontra
    have h1 : jline = [] := (List.append_eq_nil.mp (List.append_eq_nil.mp h0).1).2
    exact absurd h1 (by decide)
  rw [if_pos ⟨rfl, hne⟩]
  have hsearch : searchFrom (⟨lines.flatten ++ jline ++ post⟩ : String).data =
      some ("Jane Doe".data, "jane@example.com".data) :=
    searchFrom_lines lines post hline hfail
  rw [hsearch]
  rfl

/-- Witness for C6 amended: one non-matching leading line, a trailing header
block after the `From:` line. -/
theorem recover_sender_first_match_jane_witness :
    recoverSender "" "" ⟨[preLine].flatten ++ jline ++ "\nTo: someone@example.org".data⟩ =
      ("Jane Doe", "jane@example.com") :=
  recover_sender_first_match_jane [preLine] "\nTo: someone@example.org".data ""
    (by decide)
    (by
      intro ls hs hne
      rcases hs with ⟨t, ht⟩
      cases ls with
      | nil => exact absurd rfl hne
      | cons a as =>
        cases t with
        | nil =>
          simp only [List.nil_append] at ht
          injection ht with h1 h2
          subst h1
          subst h2
          decide
        | cons b bs =>
          have hlen := congrArg List.length ht
          simp only [List.length_append, List.length_cons, List.length_nil] at hlen
          exfalso
          omega)

end PstToMbox
